import Mathlib

/-!
Verification model of the sales ETL pipeline.

The Python sources are embedded shallowly:

* `include/transformations.py` — `validate_schema`, `clean_and_transform`,
  `build_product_aggregations` over pandas DataFrames.  A DataFrame row is a
  `Row` of `Cell`s; a raw batch is a `RawBatch` (header column names plus
  rows).  Pandas element-level behaviour is modelled as follows: on object
  columns the `.str` accessor maps non-string entries to a null marker,
  and the accessor's dtype validation — which raises `AttributeError` when
  a column's surviving values contain no string at all but some number, as
  for a wholly numeric text column — is modelled by
  `clean_and_transform_checked` on top of the elementwise pipeline;
  `pd.to_numeric(errors="coerce")` and `pd.to_datetime(errors="coerce")`
  produce null markers instead of raising; timestamps are modelled at day
  granularity (integer days since the Unix epoch), which makes the final
  `.dt.date` cast the identity; floating point numbers are modelled by `ℚ`
  with half-to-even decimal rounding.
* `include/db_loader.py` — the three load operations over an explicit
  database state, with the insert-or-update conflict behaviour of the SQL
  statements spelled out row by row.  SQL `NOW()` timestamp columns are not
  tracked.  Each operation also reports how many commands it sent to the
  database.
* `dags/sales_pipeline_dag.py` — `validate_csv` and `load_to_postgres`; the
  latter runs the three load sub-operations inside `get_connection`, which
  commits on success and rolls back on any raised error.  Errors raised by a
  sub-operation are modelled by an explicit failure-injection argument.
-/

/-! ## Python string primitives (ASCII model)

`str.lower`, `str.title` and `str.strip` as used by the cleaning engine,
modelled on ASCII.  The character helpers mirror the usual ASCII case
maps and whitespace test on a character's code point.
-/

/-- ASCII whitespace test (space, tab, line feed, carriage return). -/
def isWsChar (c : Char) : Bool :=
  decide (c.toNat = 32 ∨ c.toNat = 9 ∨ c.toNat = 10 ∨ c.toNat = 13)

/-- ASCII alphabetic test. -/
def isAlphaChar (c : Char) : Bool :=
  decide ((65 ≤ c.toNat ∧ c.toNat ≤ 90) ∨ (97 ≤ c.toNat ∧ c.toNat ≤ 122))

/-- ASCII lower-casing of one character. -/
def lowerChar (c : Char) : Char :=
  if 65 ≤ c.toNat ∧ c.toNat ≤ 90 then Char.ofNat (c.toNat + 32) else c

/-- ASCII upper-casing of one character. -/
def upperChar (c : Char) : Char :=
  if 97 ≤ c.toNat ∧ c.toNat ≤ 122 then Char.ofNat (c.toNat - 32) else c

/-- `str.strip()`: drop whitespace from both ends. -/
def pyStrip (s : String) : String :=
  ⟨((s.data.dropWhile isWsChar).reverse.dropWhile isWsChar).reverse⟩

/-- `str.lower()` (ASCII model). -/
def pyLower (s : String) : String :=
  ⟨s.data.map lowerChar⟩

/-- Core loop of `str.title()`: the boolean records whether the previous
character was alphabetic; the first alphabetic character of each run is
upper-cased and the rest are lower-cased. -/
def titleCore : Bool → List Char → List Char
  | _, [] => []
  | prevAlpha, c :: cs =>
    (if isAlphaChar c then (if prevAlpha then lowerChar c else upperChar c) else c) ::
      titleCore (isAlphaChar c) cs

/-- `str.title()` (ASCII model). -/
def pyTitle (s : String) : String :=
  ⟨titleCore false s.data⟩

/-! ## Cells

One DataFrame entry.  `null` stands for any pandas null marker
(`NaN` / `NaT` / `None`). -/

/-- A single tabular value: a string, a number (`ℚ` models a float), a
calendar date (integer days since 1970-01-01) or a null marker. -/
inductive Cell where
  | str (s : String)
  | num (q : ℚ)
  | date (d : ℤ)
  | null
deriving DecidableEq, Repr

/-- Numeric payload of a cell, if any. -/
def Cell.toNum : Cell → Option ℚ
  | .num q => some q
  | _ => none

/-- Date payload of a cell, if any. -/
def Cell.toDate : Cell → Option ℤ
  | .date d => some d
  | _ => none

/-! ## Numeric and date parsing

Executable models of `pd.to_numeric` / `pd.to_datetime` string parsing:
plain decimal literals, and ISO `YYYY-MM-DD` dates (the format produced by
the data generator and used throughout the repository). -/

/-- Digit run to a natural number. -/
def digitsToNat (cs : List Char) : ℕ :=
  cs.foldl (fun a c => a * 10 + (c.toNat - 48)) 0

/-- Unsigned decimal literal: `123`, `123.45`, `123.`, `.45`. -/
def parseUnsigned (cs : List Char) : Option ℚ :=
  let intPart := cs.takeWhile Char.isDigit
  let rest := cs.dropWhile Char.isDigit
  match rest with
  | [] => if intPart.isEmpty then none else some (digitsToNat intPart)
  | '.' :: frac =>
    if frac.all Char.isDigit ∧ (intPart ≠ [] ∨ frac ≠ []) then
      some ((digitsToNat intPart : ℚ) + (digitsToNat frac : ℚ) / (10 : ℚ) ^ frac.length)
    else none
  | _ => none

/-- Signed decimal literal. -/
def parseDecimal (s : String) : Option ℚ :=
  match s.data with
  | '-' :: rest => (parseUnsigned rest).map (fun q => -q)
  | '+' :: rest => parseUnsigned rest
  | cs => parseUnsigned cs

/-- Days since 1970-01-01 of a proleptic Gregorian civil date
(the standard `days_from_civil` computation). -/
def daysFromCivil (y m d : ℤ) : ℤ :=
  let y' := if m ≤ 2 then y - 1 else y
  let era := (if 0 ≤ y' then y' else y' - 399) / 400
  let yoe := y' - era * 400
  let mp := (m + 9) % 12
  let doy := (153 * mp + 2) / 5 + d - 1
  let doe := yoe * 365 + yoe / 4 - yoe / 100 + doy
  era * 146097 + doe - 719468

/-- Number of days of month `m` in year `y` (proleptic Gregorian). -/
def daysInMonth (y m : ℤ) : ℤ :=
  if m = 2 then
    if y % 4 = 0 ∧ (y % 100 ≠ 0 ∨ y % 400 = 0) then 29 else 28
  else if m = 4 ∨ m = 6 ∨ m = 9 ∨ m = 11 then 30
  else 31

/-- ISO `YYYY-MM-DD` date to days since the epoch. -/
def parseISODate (s : String) : Option ℤ :=
  match s.data with
  | [y1, y2, y3, y4, '-', m1, m2, '-', d1, d2] =>
    if [y1, y2, y3, y4, m1, m2, d1, d2].all Char.isDigit then
      let y : ℤ := digitsToNat [y1, y2, y3, y4]
      let m : ℤ := digitsToNat [m1, m2]
      let d : ℤ := digitsToNat [d1, d2]
      if 1 ≤ m ∧ m ≤ 12 ∧ 1 ≤ d ∧ d ≤ daysInMonth y m then
        some (daysFromCivil y m d)
      else none
    else none
  | _ => none

/-- Nanoseconds per day: `pd.to_datetime` interprets raw numbers as
nanoseconds since the epoch. -/
def nsPerDay : ℚ := 86400000000000

/-- `pd.to_numeric(x, errors="coerce")` on one entry. -/
def cellToNumeric : Cell → Cell
  | .num q => .num q
  | .str s =>
    match parseDecimal (pyStrip s) with
    | some q => .num q
    | none => .null
  | .date _ => .null
  | .null => .null

/-- `pd.to_datetime(x, errors="coerce")` on one entry, at day granularity. -/
def cellToDatetime : Cell → Cell
  | .date d => .date d
  | .str s =>
    match parseISODate (pyStrip s) with
    | some d => .date d
    | none => .null
  | .num q => .date ⌊q / nsPerDay⌋
  | .null => .null

/-- `.clip(0, 1)` on one entry (null markers pass through untouched). -/
def clipCell : Cell → Cell
  | .num q => .num (min 1 (max 0 q))
  | c => c

/-- `.str` accessor applied to one entry of an object column: strings are
transformed, anything else becomes a null marker. -/
def strCell (f : String → String) : Cell → Cell
  | .str s => .str (f s)
  | _ => .null

/-- Round an integer-scaled value half-to-even (the IEEE default used by
pandas `.round`). -/
def roundHalfEvenInt (q : ℚ) : ℤ :=
  let f := ⌊q⌋
  let frac := q - (f : ℚ)
  if frac < 1 / 2 then f
  else if 1 / 2 < frac then f + 1
  else if f % 2 = 0 then f else f + 1

/-- Round to `k` decimal places, half-to-even. -/
def roundTo (k : ℕ) (q : ℚ) : ℚ :=
  (roundHalfEvenInt (q * (10 : ℚ) ^ k) : ℚ) / (10 : ℚ) ^ k

/-- `.round(k)` on one entry (null markers stay null). -/
def roundCell (k : ℕ) : Cell → Cell
  | .num q => .num (roundTo k q)
  | c => c

/-! ## Rows and batches -/

/-- One DataFrame row of the sales pipeline.  The ten CSV columns plus the
derived `total_revenue` column (null until `clean_and_transform` assigns
it). -/
structure Row where
  order_id : Cell
  customer_id : Cell
  product : Cell
  category : Cell
  region : Cell
  quantity : Cell
  unit_price : Cell
  discount : Cell
  order_date : Cell
  status : Cell
  total_revenue : Cell
deriving DecidableEq, Repr

/-- A raw tabular batch: the header (column names actually present in the
file) together with the rows.  Rows are structured; for a batch whose
header lacks a required column the corresponding `Row` fields are
meaningless, but such a batch is rejected before any row is read. -/
structure RawBatch where
  cols : List String
  rows : List Row
deriving DecidableEq, Repr

/-- `REQUIRED_COLUMNS` from `include/transformations.py` (a Python set;
listed here in a fixed order). -/
def REQUIRED_COLUMNS : List String :=
  ["order_id", "customer_id", "product", "category", "region",
   "quantity", "unit_price", "discount", "order_date", "status"]

/-- The required columns absent from a header. -/
def missingColumns (cols : List String) : List String :=
  REQUIRED_COLUMNS.filter (fun c => !(cols.contains c))

/-- `validate_schema`: raises `ValueError` naming the missing required
columns, if any.  The error payload is that set of columns. -/
def validate_schema (cols : List String) : Except (List String) Unit :=
  match missingColumns cols with
  | [] => .ok ()
  | ms => .error ms

/-! ## The cleaning engine (`clean_and_transform`) -/

/-- Keep the first element of each key, skipping keys already `seen`. -/
def dedupKeysGo {α κ : Type} [DecidableEq κ] (key : α → κ) (seen : List κ) :
    List α → List α
  | [] => []
  | r :: rs =>
    if seen.contains (key r) then dedupKeysGo key seen rs
    else r :: dedupKeysGo key (key r :: seen) rs

/-- `df.drop_duplicates(subset=["order_id"])`: keep the first row of each
`order_id` (pandas treats null keys as equal to each other). -/
def dedupByOrderId (rows : List Row) : List Row :=
  dedupKeysGo (fun r => r.order_id) [] rows

/-- The type-coercion block: `to_datetime` on `order_date`, `to_numeric` on
`quantity` and `unit_price`, `to_numeric(...).clip(0, 1)` on `discount`. -/
def coerceRow (r : Row) : Row :=
  { r with
    order_date := cellToDatetime r.order_date
    quantity := cellToNumeric r.quantity
    unit_price := cellToNumeric r.unit_price
    discount := clipCell (cellToNumeric r.discount) }

/-- `dropna(subset=["order_id", "order_date", "quantity", "unit_price"])`:
keep a row exactly when none of the four critical fields is null. -/
def validRow (r : Row) : Bool :=
  !(r.order_id == Cell.null) && !(r.order_date == Cell.null) &&
  !(r.quantity == Cell.null) && !(r.unit_price == Cell.null)

/-- The text-normalisation block: strip-and-title `region` and `category`,
strip `product`, strip-and-lower `status`. -/
def normalizeRow (r : Row) : Row :=
  { r with
    region := strCell (fun s => pyTitle (pyStrip s)) r.region
    category := strCell (fun s => pyTitle (pyStrip s)) r.category
    product := strCell pyStrip r.product
    status := strCell (fun s => pyLower (pyStrip s)) r.status }

/-- `quantity * unit_price * (1 - discount)` with pandas null propagation. -/
def revenueCell (quantity unit_price discount : Cell) : Cell :=
  match quantity, unit_price, discount with
  | .num q, .num p, .num d => .num (q * p * (1 - d))
  | _, _, _ => .null

/-- The revenue block: assign
`total_revenue = (quantity * unit_price * (1 - discount)).round(2)`. -/
def computeRevenue (r : Row) : Row :=
  { r with total_revenue := roundCell 2 (revenueCell r.quantity r.unit_price r.discount) }

/-- `clean_and_transform` from `include/transformations.py`: schema check,
deduplication by `order_id`, type coercion, dropping unsalvageable rows,
text normalisation and revenue computation; returns the cleaned rows and
`rows_skipped = original_len - len(cleaned)`.  The final `.dt.date` cast is
the identity at this model's day granularity. -/
def clean_and_transform (b : RawBatch) : Except (List String) (List Row × ℕ) :=
  match validate_schema b.cols with
  | .error ms => .error ms
  | .ok _ =>
    let deduped := dedupByOrderId b.rows
    let kept := (deduped.map coerceRow).filter validRow
    let out := (kept.map normalizeRow).map computeRevenue
    .ok (out, b.rows.length - out.length)

/-- Column header of a cleaned batch (the ten input columns plus
`total_revenue`), used when a cleaned batch is fed back in. -/
def cleanedCols : List String :=
  REQUIRED_COLUMNS ++ ["total_revenue"]

/-! ## The aggregation engine (`build_product_aggregations`) -/

/-- One row of the `purchased_products` aggregation (and of the
`purchased_products` table). -/
structure AggRow where
  product : String
  category : String
  total_units_sold : Cell
  total_revenue : Cell
  avg_discount : Cell
  last_purchased_date : Cell
deriving DecidableEq, Repr

/-- First occurrences of a list's elements, in input order. -/
def firstOccurrences (l : List (String × String)) : List (String × String) :=
  dedupKeysGo (fun k => k) [] l

/-- The grouping key of one row: its (product, category) pair when both
are strings; rows whose key contains a null are left out of the grouping,
as pandas does. -/
def rowKey (r : Row) : Option (String × String) :=
  match r.product, r.category with
  | .str p, .str c => some (p, c)
  | _, _ => none

/-- The grouping keys of `df.groupby(["product", "category"])`: the
distinct (product, category) string pairs of the batch. -/
def aggKeys (rows : List Row) : List (String × String) :=
  firstOccurrences (rows.filterMap rowKey)

/-- The rows of one (product, category) group. -/
def groupRows (rows : List Row) (p c : String) : List Row :=
  rows.filter (fun r => r.product == Cell.str p && r.category == Cell.str c)

/-- Pandas column `sum` (nulls skipped, empty sum is 0). -/
def sumCells (l : List Cell) : Cell :=
  .num ((l.filterMap Cell.toNum).sum)

/-- Pandas column `mean` (nulls skipped, null when no numeric entry). -/
def meanCells (l : List Cell) : Cell :=
  let xs := l.filterMap Cell.toNum
  if xs.isEmpty then .null else .num (xs.sum / (xs.length : ℚ))

/-- Pandas column `max` over dates (nulls skipped, null when empty). -/
def maxCells (l : List Cell) : Cell :=
  match l.filterMap Cell.toDate with
  | [] => .null
  | d :: ds => .date (ds.foldl max d)

/-- The aggregation row of one (product, category) group. -/
def aggOfKey (rows : List Row) (k : String × String) : AggRow :=
  let g := groupRows rows k.1 k.2
  { product := k.1
    category := k.2
    total_units_sold := sumCells (g.map (·.quantity))
    total_revenue := roundCell 2 (sumCells (g.map (·.total_revenue)))
    avg_discount := roundCell 4 (meanCells (g.map (·.discount)))
    last_purchased_date := maxCells (g.map (·.order_date)) }

/-- `build_product_aggregations` from `include/transformations.py`: group by
(product, category) and aggregate quantity, revenue, discount and order
date.  (Pandas sorts the group keys; key order is irrelevant here and the
model lists groups in first-occurrence order.) -/
def build_product_aggregations (rows : List Row) : List AggRow :=
  (aggKeys rows).map (aggOfKey rows)

/-! ## The DAG-level CSV validation (`validate_csv`) -/

/-- Errors of the `validate_csv` Airflow task. -/
inductive CsvError where
  | emptyCsv
  | missingCols (missing : List String)
deriving DecidableEq, Repr

/-- `validate_csv` from `dags/sales_pipeline_dag.py`: reject an empty
DataFrame, then reject a header lacking required columns, naming them. -/
def validate_csv (nRows : ℕ) (cols : List String) : Except CsvError Unit :=
  if nRows = 0 then .error .emptyCsv
  else
    match missingColumns cols with
    | [] => .ok ()
    | ms => .error (.missingCols ms)

/-! ## The idempotent loader (`db_loader.py`)

The destination database, with the `NOW()` timestamp columns left
untracked.  Each operation returns the new state together with its Python
return value and the number of commands it sent to the database (page
batching of `execute_values` is not modelled: what matters is whether the
count is zero). -/

/-- One row of the append-only `pipeline_runs` audit table. -/
structure RunRow where
  run_id : ℕ
  dag_run_id : String
  file_processed : String
  rows_inserted : ℤ
  rows_skipped : ℤ
  run_status : String
deriving DecidableEq, Repr

/-- The destination PostgreSQL state: the three tables of the warehouse. -/
structure DbState where
  orders : List Row
  purchased_products : List AggRow
  pipeline_runs : List RunRow
deriving DecidableEq, Repr

/-- `INSERT ... ON CONFLICT (order_id) DO UPDATE`: one row of the orders
upsert — overwrite every mutable field on conflict, else append. -/
def upsertOrderRow (tbl : List Row) (r : Row) : List Row :=
  if tbl.any (fun o => o.order_id == r.order_id) then
    tbl.map (fun o => if o.order_id == r.order_id then r else o)
  else tbl ++ [r]

/-- `upsert_orders` from `include/db_loader.py`: empty-DataFrame early
return `(0, 0)`, otherwise one bulk upsert whose `rowcount` is the number
of rows passed in, giving `(rows_inserted, rows_skipped) = (len(df), 0)`. -/
def upsert_orders (df : List Row) (db : DbState) : DbState × (ℤ × ℤ) × ℕ :=
  if df.isEmpty then (db, (0, 0), 0)
  else
    ({ db with orders := df.foldl upsertOrderRow db.orders }, ((df.length : ℤ), 0), 1)

/-- SQL `existing + EXCLUDED.x` addition (`NULL` absorbs). -/
def addCell : Cell → Cell → Cell
  | .num a, .num b => .num (a + b)
  | _, _ => .null

/-- SQL `GREATEST` over dates (`GREATEST` ignores `NULL` arguments). -/
def greatestCell : Cell → Cell → Cell
  | .date a, .date b => .date (max a b)
  | .date a, _ => .date a
  | _, .date b => .date b
  | _, _ => .null

/-- `INSERT ... ON CONFLICT (product) DO UPDATE` of the purchased-products
upsert: on a product conflict, replace the category, add the incoming
units and revenue to the stored accumulators, replace the average
discount, and take the greatest of the stored and incoming last-purchased
dates; otherwise append the incoming row. -/
def upsertPP (tbl : List AggRow) (a : AggRow) : List AggRow :=
  if tbl.any (fun p => p.product == a.product) then
    tbl.map (fun p =>
      if p.product == a.product then
        { product := p.product
          category := a.category
          total_units_sold := addCell p.total_units_sold a.total_units_sold
          total_revenue := addCell p.total_revenue a.total_revenue
          avg_discount := a.avg_discount
          last_purchased_date := greatestCell p.last_purchased_date a.last_purchased_date }
      else p)
  else tbl ++ [a]

/-- `upsert_purchased_products` from `include/db_loader.py`: empty
early return, otherwise one bulk upsert of all aggregation rows. -/
def upsert_purchased_products (agg : List AggRow) (db : DbState) : DbState × ℕ :=
  if agg.isEmpty then (db, 0)
  else ({ db with purchased_products := agg.foldl upsertPP db.purchased_products }, 1)

/-- `log_pipeline_run` from `include/db_loader.py`: append one audit row to
`pipeline_runs` and return the generated serial `run_id`. -/
def log_pipeline_run (db : DbState) (dagRunId fileProcessed : String)
    (rowsInserted rowsSkipped : ℤ) (runStatus : String) : DbState × ℕ :=
  let rid := db.pipeline_runs.length + 1
  ({ db with pipeline_runs :=
      db.pipeline_runs ++ [⟨rid, dagRunId, fileProcessed, rowsInserted, rowsSkipped, runStatus⟩] },
   rid)

/-! ## The load task (`load_to_postgres` inside `get_connection`)

A psycopg2 connection accumulates uncommitted work; `get_connection`
commits it only if the body finished without raising, and rolls everything
back otherwise.  An error raised by one of the three sub-operations is
modelled by an explicit failure-injection argument naming the step that
raises. -/

/-- The three load sub-operations of one pipeline run. -/
inductive LoadStep where
  | ordersStep
  | productsStep
  | auditStep
deriving DecidableEq, Repr

/-- The body of `load_to_postgres`'s `with get_connection()` block: the
orders upsert, then the aggregation upsert, then the audit insert, on the
connection's uncommitted state.  `failAt` names the sub-operation whose
database error propagates (if any); a step that fails leaves the body with
an exception before any later step runs. -/
def runLoadBody (failAt : Option LoadStep) (df : List Row) (agg : List AggRow)
    (dagRunId objectKey : String) (rowsSkipped : ℤ) (db : DbState) :
    Except LoadStep DbState :=
  if failAt = some .ordersStep then .error .ordersStep
  else
    let o := upsert_orders df db
    let rowsInserted := o.2.1.1
    if failAt = some .productsStep then .error .productsStep
    else
      let p := upsert_purchased_products agg o.1
      if failAt = some .auditStep then .error .auditStep
      else
        .ok (log_pipeline_run p.1 dagRunId objectKey rowsInserted rowsSkipped "success").1

/-- `get_connection` from `include/db_loader.py`: run a transaction body;
commit its work on success, roll every uncommitted change back if it
raised.  Returns the committed database state and whether the run
succeeded. -/
def get_connection (body : DbState → Except LoadStep DbState) (db : DbState) :
    DbState × Bool :=
  match body db with
  | .ok db' => (db', true)
  | .error _ => (db, false)

/-- `load_to_postgres` from `dags/sales_pipeline_dag.py`: the three load
sub-operations inside one `get_connection` transaction scope. -/
def load_to_postgres (failAt : Option LoadStep) (df : List Row) (agg : List AggRow)
    (dagRunId objectKey : String) (rowsSkipped : ℤ) (db : DbState) : DbState × Bool :=
  get_connection (runLoadBody failAt df agg dagRunId objectKey rowsSkipped) db

/-! ## Shared concrete data for witnesses and counterexamples -/

/-- A well-formed raw order row (the repository's own unit-test data). -/
def rowOrd1 : Row :=
  { order_id := .str "ord-001", customer_id := .str "c1", product := .str "Laptop"
    category := .str "electronics", region := .str "north america"
    quantity := .num 2, unit_price := .num (99999 / 100), discount := .num (1 / 10)
    order_date := .str "2024-06-01", status := .str "completed", total_revenue := .null }

/-- A second well-formed raw order row. -/
def rowOrd2 : Row :=
  { order_id := .str "ord-002", customer_id := .str "c2", product := .str "Shoes"
    category := .str "apparel", region := .str "europe"
    quantity := .num 1, unit_price := .num (4995 / 100), discount := .num 0
    order_date := .str "2024-07-15", status := .str "completed", total_revenue := .null }

/-- An empty destination database. -/
def emptyDb : DbState :=
  { orders := [], purchased_products := [], pipeline_runs := [] }

/-- A one-product `purchased_products` table: 5 units, revenue 10. -/
def ppTable0 : List AggRow :=
  [{ product := "Widget", category := "Gadgets", total_units_sold := .num 5
     total_revenue := .num 10, avg_discount := .num (1 / 10)
     last_purchased_date := .date 19875 }]

/-- A database whose `purchased_products` table is `ppTable0`. -/
def dbPP0 : DbState :=
  { orders := [], purchased_products := ppTable0, pipeline_runs := [] }

/-- An incoming aggregation row for the same product with negative units
and revenue (nothing in the pipeline validates that quantities or prices
are non-negative). -/
def aggNeg : AggRow :=
  { product := "Widget", category := "Gadgets", total_units_sold := .num (-1)
    total_revenue := .num (-2), avg_discount := .num (1 / 5)
    last_purchased_date := .date 19800 }

/-- An incoming aggregation row for the same product with positive units
and revenue. -/
def aggPos : AggRow :=
  { product := "Widget", category := "Gadgets", total_units_sold := .num 3
    total_revenue := .num 6, avg_discount := .num (1 / 4)
    last_purchased_date := .date 19900 }

/-! ## C10 — empty-input loader calls are no-ops -/

/-- C10: called on an empty cleaned batch, `upsert_orders` returns `(0, 0)`
and `upsert_purchased_products` returns immediately; neither sends any
database command and the database state is unchanged. -/
theorem C10_empty_upserts_are_noops (db : DbState) :
    upsert_orders [] db = (db, (0, 0), 0) ∧
    upsert_purchased_products [] db = (db, 0) :=
  ⟨rfl, rfl⟩

/-! ## C1 — transaction atomicity of the load stage -/

/-- C1: the three load sub-operations run inside one `get_connection`
transaction scope; if any of them raises, the whole transaction is rolled
back and the committed database state is exactly the initial one — in
particular an aggregation-upsert failure after a successful orders upsert
undoes the orders upsert, and no audit row persists. -/
theorem C1_load_is_atomic (failAt : Option LoadStep) (s : LoadStep)
    (df : List Row) (agg : List AggRow) (dagRunId objectKey : String)
    (rowsSkipped : ℤ) (db : DbState) (h : failAt = some s) :
    load_to_postgres failAt df agg dagRunId objectKey rowsSkipped db = (db, false) := by
  subst h
  cases s <;>
    simp [load_to_postgres, get_connection, runLoadBody]

/-- Witness for C1: the aggregation upsert fails after a non-trivial orders
upsert; the committed state is the untouched initial database. -/
theorem C1_load_is_atomic_witness :
    load_to_postgres (some .productsStep) [rowOrd1] [aggPos] "run-1" "sales.csv" 0 dbPP0 =
      (dbPP0, false) :=
  C1_load_is_atomic (some .productsStep) .productsStep [rowOrd1] [aggPos]
    "run-1" "sales.csv" 0 dbPP0 rfl

/-! ## C2 — accumulation behaviour of the purchased-products upsert -/

/-- The conflict-branch update applied by `upsertPP` to a stored row. -/
def ppMerge (p a : AggRow) : AggRow :=
  { product := p.product
    category := a.category
    total_units_sold := addCell p.total_units_sold a.total_units_sold
    total_revenue := addCell p.total_revenue a.total_revenue
    avg_discount := a.avg_discount
    last_purchased_date := greatestCell p.last_purchased_date a.last_purchased_date }

theorem ppMerge_product (p a : AggRow) : (ppMerge p a).product = p.product := rfl

/-- On a product conflict, `upsertPP` rewrites the first stored row with
that product to its merge with the incoming row. -/
theorem find?_upsertPP (tbl : List AggRow) (a p₀ : AggRow)
    (hfind : tbl.find? (fun p => p.product == a.product) = some p₀) :
    (upsertPP tbl a).find? (fun p => p.product == a.product) = some (ppMerge p₀ a) := by
  have hp₀ : (p₀.product == a.product) = true :=
    @List.find?_some AggRow (fun p => p.product == a.product) p₀ tbl hfind
  have hany : tbl.any (fun p => p.product == a.product) = true := by
    rw [List.any_eq_true]
    exact ⟨p₀, List.mem_of_find?_eq_some hfind, hp₀⟩
  have hmap : upsertPP tbl a =
      tbl.map (fun p => if p.product == a.product then ppMerge p a else p) := by
    simp only [upsertPP, hany, if_true, ppMerge]
  rw [hmap, List.find?_map]
  have hcomp :
      ((fun p : AggRow => p.product == a.product) ∘
        fun p => if p.product == a.product then ppMerge p a else p) =
      fun p : AggRow => p.product == a.product := by
    funext p
    by_cases hp : p.product = a.product
    · simp [hp, ppMerge]
    · simp [hp]
  rw [hcomp, hfind]
  simp [beq_iff_eq.mp hp₀]

/-- C2 counterexample: the claim's monotonicity fails on the code.  An
aggregation batch with negative incoming units/revenue (nothing upstream
forbids negative quantities or prices) makes the stored accumulators
decrease: total units drop from 5 to 4 and revenue from 10 to 8. -/
theorem C2_counterexample :
    (upsert_purchased_products [aggNeg] dbPP0).1.purchased_products =
      [{ product := "Widget", category := "Gadgets", total_units_sold := .num 4
         total_revenue := .num 8, avg_discount := .num (1 / 5)
         last_purchased_date := .date 19875 }] ∧
    ((4 : ℚ) < 5 ∧ (8 : ℚ) < 10) := by
  refine ⟨?_, by norm_num, by norm_num⟩
  norm_num [upsert_purchased_products, dbPP0, upsertPP, ppTable0, aggNeg,
    addCell, greatestCell]

/-- C2 amended: on a product conflict the stored `total_units_sold` and
`total_revenue` accumulate additively (so they are monotonically
increasing provided the incoming units and revenue are non-negative, which
the pipeline does not itself enforce), while `avg_discount` is replaced by
the incoming value and `last_purchased_date` by the greatest of the stored
and incoming dates. -/
theorem C2_pp_upsert_accumulates (db : DbState) (a : AggRow) (p₀ : AggRow)
    (hfind : db.purchased_products.find? (fun p => p.product == a.product) = some p₀) :
    ∃ p₁,
      (upsert_purchased_products [a] db).1.purchased_products.find?
          (fun p => p.product == a.product) = some p₁ ∧
      p₁.total_units_sold = addCell p₀.total_units_sold a.total_units_sold ∧
      p₁.total_revenue = addCell p₀.total_revenue a.total_revenue ∧
      p₁.avg_discount = a.avg_discount ∧
      p₁.last_purchased_date = greatestCell p₀.last_purchased_date a.last_purchased_date ∧
      (∀ u du, p₀.total_units_sold = .num u → a.total_units_sold = .num du → 0 ≤ du →
        p₁.total_units_sold = .num (u + du) ∧ u ≤ u + du) ∧
      (∀ v dv, p₀.total_revenue = .num v → a.total_revenue = .num dv → 0 ≤ dv →
        p₁.total_revenue = .num (v + dv) ∧ v ≤ v + dv) := by
  have hstate : (upsert_purchased_products [a] db).1.purchased_products =
      upsertPP db.purchased_products a := by
    simp [upsert_purchased_products]
  refine ⟨ppMerge p₀ a, ?_, rfl, rfl, rfl, rfl, ?_, ?_⟩
  · rw [hstate]
    exact find?_upsertPP _ _ _ hfind
  · intro u du hu hdu hnn
    constructor
    · simp [ppMerge, addCell, hu, hdu]
    · linarith
  · intro v dv hv hdv hnn
    constructor
    · simp [ppMerge, addCell, hv, hdv]
    · linarith

/-- Witness for the amended C2: a positive incoming batch for a stored
product accumulates 5 + 3 units and 10 + 6 revenue, replaces the average
discount and keeps the later date. -/
theorem C2_pp_upsert_accumulates_witness :
    ∃ p₁,
      (upsert_purchased_products [aggPos] dbPP0).1.purchased_products.find?
          (fun p => p.product == aggPos.product) = some p₁ ∧
      p₁.total_units_sold = addCell (Cell.num 5) aggPos.total_units_sold ∧
      p₁.total_revenue = addCell (Cell.num 10) aggPos.total_revenue ∧
      p₁.avg_discount = aggPos.avg_discount ∧
      p₁.last_purchased_date = greatestCell (Cell.date 19875) aggPos.last_purchased_date ∧
      (∀ u du, Cell.num 5 = Cell.num u → aggPos.total_units_sold = .num du → 0 ≤ du →
        p₁.total_units_sold = .num (u + du) ∧ u ≤ u + du) ∧
      (∀ v dv, Cell.num 10 = Cell.num v → aggPos.total_revenue = .num dv → 0 ≤ dv →
        p₁.total_revenue = .num (v + dv) ∧ v ≤ v + dv) :=
  C2_pp_upsert_accumulates dbPP0 aggPos
    { product := "Widget", category := "Gadgets", total_units_sold := .num 5
      total_revenue := .num 10, avg_discount := .num (1 / 10)
      last_purchased_date := .date 19875 }
    (by simp [dbPP0, ppTable0, aggPos])

/-! ## C5 — what schema validation does and does not check -/

/-- C5 counterexample: the claim requires a zero-row batch to fail
schema validation with an empty-batch error, but the cleaning engine's
`validate_schema` checks only column presence: a zero-row batch with all
ten required columns passes validation, and `clean_and_transform` accepts
it, returning an empty cleaned batch with zero rows skipped. -/
theorem C5_counterexample :
    validate_schema REQUIRED_COLUMNS = .ok () ∧
    clean_and_transform ⟨REQUIRED_COLUMNS, []⟩ = .ok ([], 0) :=
  ⟨rfl, rfl⟩

/-- C5 amended: schema validation as invoked by the cleaning engine
succeeds exactly when all ten required columns are present, regardless of
row count; when columns are missing it fails with an error naming exactly
the missing columns.  The zero-row rejection lives in the DAG-level
`validate_csv` task, which also reports exactly the missing columns.
(Both checks are pure in this model: no mutation can precede a failure.) -/
theorem C5_schema_validation (cols : List String) (n : ℕ) :
    (validate_schema cols = .ok () ↔ missingColumns cols = []) ∧
    (missingColumns cols ≠ [] → validate_schema cols = .error (missingColumns cols)) ∧
    (validate_csv 0 cols = .error .emptyCsv) ∧
    (0 < n → missingColumns cols ≠ [] →
      validate_csv n cols = .error (.missingCols (missingColumns cols))) ∧
    (0 < n → missingColumns cols = [] → validate_csv n cols = .ok ()) := by
  refine ⟨?_, ?_, ?_, ?_, ?_⟩
  · cases h : missingColumns cols <;> simp [validate_schema, h]
  · intro hne
    cases h : missingColumns cols with
    | nil => exact absurd h hne
    | cons a as => simp [validate_schema, h]
  · simp [validate_csv]
  · intro hn hne
    cases h : missingColumns cols with
    | nil => exact absurd h hne
    | cons a as => simp [validate_csv, Nat.pos_iff_ne_zero.mp hn, h]
  · intro hn he
    simp [validate_csv, Nat.pos_iff_ne_zero.mp hn, he]

/-- Witness for the amended C5: a batch with only `order_id` and `product`
is rejected naming the eight missing columns, and `validate_csv` rejects a
zero-row batch. -/
theorem C5_schema_validation_witness :
    validate_schema ["order_id", "product"] =
      .error ["customer_id", "category", "region", "quantity", "unit_price",
              "discount", "order_date", "status"] ∧
    validate_csv 0 REQUIRED_COLUMNS = .error .emptyCsv := by
  constructor
  · have h := (C5_schema_validation ["order_id", "product"] 1).2.1 (by decide)
    rw [h]
    rfl
  · exact (C5_schema_validation REQUIRED_COLUMNS 1).2.2.1

/-! ## C8 — discount clamping -/

/-- C8: within `clean_and_transform`'s coercion block, a discount that
coerces to a number is clamped to [0, 1] by moving out-of-range values to
the nearest boundary rather than dropping the row. -/
theorem C8_discount_clamped (r : Row) (q : ℚ)
    (h : cellToNumeric r.discount = .num q) :
    (coerceRow r).discount = .num (min 1 (max 0 q)) ∧
    (1 < q → (coerceRow r).discount = .num 1) ∧
    (q < 0 → (coerceRow r).discount = .num 0) := by
  refine ⟨by simp [coerceRow, h, clipCell], ?_, ?_⟩
  · intro h1
    have hmax : max 0 q = q := max_eq_right (le_of_lt (lt_trans one_pos h1))
    have hmin : min 1 (max 0 q) = 1 := by rw [hmax]; exact min_eq_left (le_of_lt h1)
    simp [coerceRow, h, clipCell, hmin]
  · intro h0
    have hmax : max 0 q = 0 := max_eq_left (le_of_lt h0)
    have hmin : min 1 (max 0 q) = 0 := by rw [hmax]; norm_num
    simp [coerceRow, h, clipCell, hmin]

/-- Witness for C8: an input discount of 1.5 is stored as 1.0 and an input
discount of -0.2 is stored as 0.0. -/
theorem C8_discount_clamped_witness :
    (coerceRow { rowOrd1 with discount := .str "1.5" }).discount = .num 1 ∧
    (coerceRow { rowOrd1 with discount := .str "-0.2" }).discount = .num 0 := by
  constructor
  · exact (C8_discount_clamped { rowOrd1 with discount := .str "1.5" }
      (((1 : ℕ) : ℚ) + ((5 : ℕ) : ℚ) / (10 : ℚ) ^ (1 : ℕ)) rfl).2.1 (by norm_num)
  · exact (C8_discount_clamped { rowOrd1 with discount := .str "-0.2" }
      (-(((0 : ℕ) : ℚ) + ((2 : ℕ) : ℚ) / (10 : ℚ) ^ (1 : ℕ))) rfl).2.2 (by norm_num)

/-! ## First-occurrence deduplication lemmas -/

section DedupLemmas

variable {α κ : Type} [DecidableEq κ] (key : α → κ)

theorem contains_iff_mem (seen : List κ) (k : κ) : seen.contains k = true ↔ k ∈ seen := by
  simp [List.contains]

theorem mem_of_mem_dedupKeysGo :
    ∀ (seen : List κ) (l : List α) (x : α), x ∈ dedupKeysGo key seen l → x ∈ l := by
  intro seen l
  induction l generalizing seen with
  | nil => intro x hx; simp [dedupKeysGo] at hx
  | cons h t ih =>
    intro x hx
    simp only [dedupKeysGo] at hx
    split at hx
    · exact List.mem_cons_of_mem _ (ih _ _ hx)
    · rcases List.mem_cons.mp hx with hx | hx
      · exact hx ▸ List.mem_cons_self _ _
      · exact List.mem_cons_of_mem _ (ih _ _ hx)

theorem dedupKeysGo_filter_of_seen :
    ∀ (seen : List κ) (l : List α) (k : κ), k ∈ seen →
      (dedupKeysGo key seen l).filter (fun x => key x == k) = [] := by
  intro seen l
  induction l generalizing seen with
  | nil => intro k _; simp [dedupKeysGo]
  | cons h t ih =>
    intro k hk
    simp only [dedupKeysGo]
    split
    · exact ih _ _ hk
    · rename_i hseen
      have hne : key h ≠ k := by
        intro he
        exact hseen ((contains_iff_mem _ _).mpr (he ▸ hk))
      rw [List.filter_cons_of_neg (by simp [hne])]
      exact ih _ _ (List.mem_cons_of_mem _ hk)

theorem dedupKeysGo_filter_of_find? :
    ∀ (seen : List κ) (l : List α) (k : κ) (r : α), ¬ k ∈ seen →
      l.find? (fun x => key x == k) = some r →
      (dedupKeysGo key seen l).filter (fun x => key x == k) = [r] := by
  intro seen l
  induction l generalizing seen with
  | nil => intro k r _ hfind; simp at hfind
  | cons h t ih =>
    intro k r hk hfind
    simp only [dedupKeysGo]
    by_cases hkey : key h = k
    · have hpred : ((fun x : α => key x == k) h) = true := by simp [hkey]
      have hr : h = r := by
        have h1 : List.find? (fun x => key x == k) (h :: t) = some h :=
          List.find?_cons_of_pos t hpred
        exact Option.some.inj (h1.symm.trans hfind)
      subst hr
      split
      · rename_i hseen
        exact absurd (hkey ▸ (contains_iff_mem _ _).mp hseen) hk
      · rw [@List.filter_cons_of_pos α (fun x => key x == k) h
            (dedupKeysGo key (key h :: seen) t) hpred,
          dedupKeysGo_filter_of_seen key _ _ _ (hkey ▸ List.mem_cons_self (key h) seen)]
    · have hpredf : ¬ ((fun x : α => key x == k) h) = true := by simp [hkey]
      have hfind2 : t.find? (fun x => key x == k) = some r := by
        rwa [List.find?_cons_of_neg t hpredf] at hfind
      split
      · exact ih _ _ _ hk hfind2
      · rw [@List.filter_cons_of_neg α (fun x => key x == k) h
            (dedupKeysGo key (key h :: seen) t) hpredf]
        refine ih _ _ _ ?_ hfind2
        simp only [List.mem_cons]
        rintro (he | hm)
        · exact hkey he.symm
        · exact hk hm

theorem dedupKeysGo_pairwise :
    ∀ (seen : List κ) (l : List α),
      List.Pairwise (fun a b => key a ≠ key b) (dedupKeysGo key seen l) ∧
      ∀ x ∈ dedupKeysGo key seen l, ¬ key x ∈ seen := by
  intro seen l
  induction l generalizing seen with
  | nil => simp [dedupKeysGo]
  | cons h t ih =>
    simp only [dedupKeysGo]
    split
    · exact ih _
    · rename_i hseen
      obtain ⟨hpw, hnotin⟩ := ih (key h :: seen)
      refine ⟨List.pairwise_cons.mpr ⟨?_, hpw⟩, ?_⟩
      · intro x hx
        have hx2 := hnotin x hx
        simp only [List.mem_cons] at hx2
        exact fun he => hx2 (Or.inl he.symm)
      · intro x hx
        rcases List.mem_cons.mp hx with hx | hx
        · subst hx
          intro hc
          exact hseen ((contains_iff_mem _ _).mpr hc)
        · have hx2 := hnotin x hx
          simp only [List.mem_cons] at hx2
          exact fun hc => hx2 (Or.inr hc)

theorem dedupKeysGo_eq_self :
    ∀ (seen : List κ) (l : List α),
      List.Pairwise (fun a b => key a ≠ key b) l →
      (∀ x ∈ l, ¬ key x ∈ seen) →
      dedupKeysGo key seen l = l := by
  intro seen l
  induction l generalizing seen with
  | nil => intro _ _; rfl
  | cons h t ih =>
    intro hpw hnotin
    obtain ⟨hhead, htail⟩ := List.pairwise_cons.mp hpw
    have hfalse : ¬ seen.contains (key h) = true := by
      intro hc
      exact hnotin h (List.mem_cons_self _ _) ((contains_iff_mem _ _).mp hc)
    simp only [dedupKeysGo]
    rw [if_neg hfalse]
    congr 1
    apply ih
    · exact htail
    · intro x hx
      simp only [List.mem_cons]
      rintro (he | hm)
      · exact hhead x hx he.symm
      · exact hnotin x (List.mem_cons_of_mem _ hx) hm

/-- The first list element equal to `a` is `a` itself. -/
theorem find?_beq_self_of_mem (l : List κ) (a : κ) (ha : a ∈ l) :
    l.find? (fun x => x == a) = some a := by
  induction l with
  | nil => simp at ha
  | cons h t ih =>
    by_cases hh : h = a
    · subst hh
      rw [List.find?_cons_of_pos _ (by simp)]
    · rw [List.find?_cons_of_neg _ (by simp [hh])]
      refine ih ?_
      rcases List.mem_cons.mp ha with h2 | h2
      · exact absurd h2.symm hh
      · exact h2

end DedupLemmas

/-! ## C7 — correctness of the product aggregation -/

theorem rowKey_eq_some (r : Row) (k : String × String) (h : rowKey r = some k) :
    r.product = Cell.str k.1 ∧ r.category = Cell.str k.2 := by
  unfold rowKey at h
  split at h
  · rename_i hp hc
    obtain rfl := Option.some.inj h
    exact ⟨hp, hc⟩
  · simp at h

/-- C7: for every cleaned batch, `build_product_aggregations` produces
exactly one output row per distinct (product, category) pair present in
the input — carrying the group's quantity sum, revenue sum rounded to 2
decimals, discount mean rounded to 4 decimals and maximal order date —
and every output row's key pair is present in the input. -/
theorem C7_aggregation_correct (rows : List Row) (p c : String)
    (hpres : ∃ r ∈ rows, r.product = Cell.str p ∧ r.category = Cell.str c) :
    (build_product_aggregations rows).filter
        (fun a => a.product == p && a.category == c) =
      [{ product := p, category := c,
         total_units_sold := sumCells ((groupRows rows p c).map (·.quantity)),
         total_revenue := roundCell 2 (sumCells ((groupRows rows p c).map (·.total_revenue))),
         avg_discount := roundCell 4 (meanCells ((groupRows rows p c).map (·.discount))),
         last_purchased_date := maxCells ((groupRows rows p c).map (·.order_date)) }] ∧
    ∀ a ∈ build_product_aggregations rows,
      ∃ r ∈ rows, r.product = Cell.str a.product ∧ r.category = Cell.str a.category := by
  obtain ⟨r, hr, hrp, hrc⟩ := hpres
  have hpairmem : (p, c) ∈ rows.filterMap rowKey :=
    List.mem_filterMap.mpr ⟨r, hr, by simp [rowKey, hrp, hrc]⟩
  constructor
  · have hfiltkeys :
        (aggKeys rows).filter
            (fun k : String × String => @BEq.beq _ instBEqOfDecidableEq k (p, c)) =
          [(p, c)] :=
      dedupKeysGo_filter_of_find? (fun k : String × String => k) [] (rows.filterMap rowKey)
        (p, c) (p, c) (List.not_mem_nil _) (find?_beq_self_of_mem _ _ hpairmem)
    simp only [build_product_aggregations]
    rw [List.filter_map]
    have hcomp : ((fun a : AggRow => a.product == p && a.category == c) ∘ aggOfKey rows) =
        (fun k : String × String => @BEq.beq _ instBEqOfDecidableEq k (p, c)) := by
      funext k
      show ((aggOfKey rows k).product == p && (aggOfKey rows k).category == c) = _
      rw [Bool.eq_iff_iff]
      show _ ↔ decide (k = (p, c)) = true
      simp [aggOfKey, Prod.ext_iff]
    rw [hcomp, hfiltkeys]
    rfl
  · intro a ha
    obtain ⟨k, hk, hfk⟩ := List.mem_map.mp ha
    have hkpairs : k ∈ rows.filterMap rowKey :=
      mem_of_mem_dedupKeysGo (fun x : String × String => x) _ _ _ hk
    obtain ⟨r2, hr2, hr2k⟩ := List.mem_filterMap.mp hkpairs
    obtain ⟨hp2, hc2⟩ := rowKey_eq_some r2 k hr2k
    refine ⟨r2, hr2, ?_, ?_⟩
    · rw [hp2, ← hfk]
      rfl
    · rw [hc2, ← hfk]
      rfl

/-- Witness for C7: on the two-product demo batch's cleaned rows, the
"Laptop"/"Electronics" group aggregates to the stated formulas. -/
theorem C7_aggregation_correct_witness :
    (build_product_aggregations
        [computeRevenue (normalizeRow (coerceRow rowOrd1)),
         computeRevenue (normalizeRow (coerceRow rowOrd2))]).filter
        (fun a => a.product == "Laptop" && a.category == "Electronics") =
      [{ product := "Laptop", category := "Electronics",
         total_units_sold := sumCells ((groupRows
           [computeRevenue (normalizeRow (coerceRow rowOrd1)),
            computeRevenue (normalizeRow (coerceRow rowOrd2))] "Laptop" "Electronics").map (·.quantity)),
         total_revenue := roundCell 2 (sumCells ((groupRows
           [computeRevenue (normalizeRow (coerceRow rowOrd1)),
            computeRevenue (normalizeRow (coerceRow rowOrd2))] "Laptop" "Electronics").map (·.total_revenue))),
         avg_discount := roundCell 4 (meanCells ((groupRows
           [computeRevenue (normalizeRow (coerceRow rowOrd1)),
            computeRevenue (normalizeRow (coerceRow rowOrd2))] "Laptop" "Electronics").map (·.discount))),
         last_purchased_date := maxCells ((groupRows
           [computeRevenue (normalizeRow (coerceRow rowOrd1)),
            computeRevenue (normalizeRow (coerceRow rowOrd2))] "Laptop" "Electronics").map (·.order_date)) }] ∧
    ∀ a ∈ build_product_aggregations
        [computeRevenue (normalizeRow (coerceRow rowOrd1)),
         computeRevenue (normalizeRow (coerceRow rowOrd2))],
      ∃ r ∈ [computeRevenue (normalizeRow (coerceRow rowOrd1)),
             computeRevenue (normalizeRow (coerceRow rowOrd2))],
        r.product = Cell.str a.product ∧ r.category = Cell.str a.category :=
  C7_aggregation_correct
    [computeRevenue (normalizeRow (coerceRow rowOrd1)),
     computeRevenue (normalizeRow (coerceRow rowOrd2))] "Laptop" "Electronics"
    ⟨computeRevenue (normalizeRow (coerceRow rowOrd1)),
     List.mem_cons_self _ _, rfl, rfl⟩

/-! ## The cleaned output of the first occurrence of an order identifier -/

/-- The full per-row cleaning transformation applied to surviving rows. -/
def cleanRowFull (r : Row) : Row :=
  computeRevenue (normalizeRow (coerceRow r))

/-- On a schema-complete batch, `clean_and_transform` succeeds with the
composed pipeline value. -/
theorem clean_and_transform_ok (b : RawBatch) (hmiss : missingColumns b.cols = []) :
    clean_and_transform b = .ok
      ((((dedupByOrderId b.rows).map coerceRow).filter validRow
          |>.map normalizeRow |>.map computeRevenue),
       b.rows.length -
         ((((dedupByOrderId b.rows).map coerceRow).filter validRow
            |>.map normalizeRow |>.map computeRevenue)).length) := by
  simp [clean_and_transform, validate_schema, hmiss]

theorem filter_swap {α : Type} (p q : α → Bool) (l : List α) :
    (l.filter p).filter q = (l.filter q).filter p := by
  rw [List.filter_filter, List.filter_filter]
  congr 1
  funext a
  rw [Bool.and_comm]

/-- The cleaned output's rows with a given order identifier are exactly
the cleaned first input occurrence of that identifier, provided it
survives the null-drop. -/
theorem clean_filter_key (b : RawBatch) (k : Cell) (r : Row)
    (hmiss : missingColumns b.cols = [])
    (hfind : b.rows.find? (fun x => x.order_id == k) = some r)
    (hvalid : validRow (coerceRow r) = true) :
    ∃ out n, clean_and_transform b = .ok (out, n) ∧
      out.filter (fun x => x.order_id == k) = [cleanRowFull r] := by
  refine ⟨_, _, clean_and_transform_ok b hmiss, ?_⟩
  have h1 : (dedupByOrderId b.rows).filter (fun x => x.order_id == k) = [r] :=
    dedupKeysGo_filter_of_find? (fun x : Row => x.order_id) [] b.rows k r
      (List.not_mem_nil _) hfind
  have hc1 : ((fun x : Row => x.order_id == k) ∘ computeRevenue) =
      (fun x : Row => x.order_id == k) := rfl
  have hc2 : ((fun x : Row => x.order_id == k) ∘ normalizeRow) =
      (fun x : Row => x.order_id == k) := rfl
  have hc3 : ((fun x : Row => x.order_id == k) ∘ coerceRow) =
      (fun x : Row => x.order_id == k) := rfl
  rw [List.filter_map, hc1, List.filter_map, hc2, filter_swap, List.filter_map, hc3, h1]
  simp [cleanRowFull, hvalid]

/-! ## C6 — deduplication keeps the first occurrence -/

/-- A duplicate of `rowOrd1`'s order identifier with an unparseable date. -/
def rowDupBad : Row :=
  { rowOrd1 with order_date := .str "not-a-date" }

/-- A second, fully valid row with `rowOrd1`'s order identifier. -/
def rowDupGood : Row :=
  { rowOrd1 with customer_id := .str "c9", quantity := .num 5 }

/-- C6 counterexample: a batch whose two rows share an order identifier but
whose FIRST occurrence has an unparseable date yields a cleaned output
with ZERO rows for that identifier, not exactly one: deduplication runs
before the null-drop, so the surviving duplicate is discarded and then the
kept first occurrence is dropped. -/
theorem C6_counterexample :
    (([rowDupBad, rowDupGood] : List Row).filter
        (fun x => x.order_id == Cell.str "ord-001")).length = 2 ∧
    clean_and_transform ⟨REQUIRED_COLUMNS, [rowDupBad, rowDupGood]⟩ = .ok ([], 2) := by
  constructor
  · rfl
  · rfl

/-- C6 amended: for a batch with two or more rows sharing an order
identifier, if the FIRST occurrence survives type coercion (its critical
fields are coercible), the cleaned output contains exactly one row for
that identifier, and it is the first occurrence's row as transformed by
the cleaning pipeline; when the first occurrence does not survive, the
output may contain no row for that identifier even though a later
duplicate was valid. -/
theorem C6_dedup_first_occurrence (b : RawBatch) (k : Cell) (r : Row)
    (hmiss : missingColumns b.cols = [])
    (hdup : 2 ≤ (b.rows.filter (fun x => x.order_id == k)).length)
    (hfind : b.rows.find? (fun x => x.order_id == k) = some r)
    (hvalid : validRow (coerceRow r) = true) :
    ∃ out n, clean_and_transform b = .ok (out, n) ∧
      out.filter (fun x => x.order_id == k) = [cleanRowFull r] ∧
      (out.filter (fun x => x.order_id == k)).length = 1 := by
  obtain ⟨out, n, hok, hfilt⟩ := clean_filter_key b k r hmiss hfind hvalid
  exact ⟨out, n, hok, hfilt, by rw [hfilt]; rfl⟩

/-- Witness for the amended C6: two rows share `ord-001`; the cleaned
output has exactly one `ord-001` row, the cleaned first occurrence. -/
theorem C6_dedup_first_occurrence_witness :
    ∃ out n,
      clean_and_transform ⟨REQUIRED_COLUMNS, [rowOrd1, rowDupGood]⟩ = .ok (out, n) ∧
      out.filter (fun x => x.order_id == Cell.str "ord-001") = [cleanRowFull rowOrd1] ∧
      (out.filter (fun x => x.order_id == Cell.str "ord-001")).length = 1 :=
  C6_dedup_first_occurrence ⟨REQUIRED_COLUMNS, [rowOrd1, rowDupGood]⟩
    (Cell.str "ord-001") rowOrd1 rfl (by decide) rfl (by decide)

/-! ## C9 — rows with an uncoercible discount are kept -/

theorem revenueCell_null_discount (x y : Cell) : revenueCell x y Cell.null = Cell.null := by
  cases x <;> cases y <;> rfl

/-- C9: a row whose discount cannot be coerced to a number but whose order
identifier, order date, quantity and unit price are all valid is KEPT by
`clean_and_transform` (discount is not in the null-drop set); its cleaned
discount and computed total revenue are null markers. -/
theorem C9_null_discount_kept (b : RawBatch) (r : Row)
    (hmiss : missingColumns b.cols = [])
    (hfind : b.rows.find? (fun x => x.order_id == r.order_id) = some r)
    (hvalid : validRow (coerceRow r) = true)
    (hdisc : cellToNumeric r.discount = Cell.null) :
    ∃ out n, clean_and_transform b = .ok (out, n) ∧
      cleanRowFull r ∈ out ∧
      (cleanRowFull r).discount = Cell.null ∧
      (cleanRowFull r).total_revenue = Cell.null := by
  obtain ⟨out, n, hok, hfilt⟩ := clean_filter_key b r.order_id r hmiss hfind hvalid
  refine ⟨out, n, hok, ?_, ?_, ?_⟩
  · have hmem : cleanRowFull r ∈ out.filter (fun x => x.order_id == r.order_id) := by
      rw [hfilt]
      exact List.mem_cons_self _ _
    exact List.mem_of_mem_filter hmem
  · show (computeRevenue (normalizeRow (coerceRow r))).discount = Cell.null
    simp [computeRevenue, normalizeRow, coerceRow, hdisc, clipCell]
  · show (computeRevenue (normalizeRow (coerceRow r))).total_revenue = Cell.null
    have hd : (normalizeRow (coerceRow r)).discount = Cell.null := by
      simp [normalizeRow, coerceRow, hdisc, clipCell]
    simp [computeRevenue, hd, revenueCell_null_discount, roundCell]

/-- A raw row whose discount is the uncoercible string `"free"`. -/
def rowDiscFree : Row :=
  { rowOrd1 with discount := .str "free" }

/-- Witness for C9: the `"free"`-discount row is kept, with null discount
and null total revenue in the cleaned output. -/
theorem C9_null_discount_kept_witness :
    ∃ out n,
      clean_and_transform ⟨REQUIRED_COLUMNS, [rowDiscFree]⟩ = .ok (out, n) ∧
      cleanRowFull rowDiscFree ∈ out ∧
      (cleanRowFull rowDiscFree).discount = Cell.null ∧
      (cleanRowFull rowDiscFree).total_revenue = Cell.null :=
  C9_null_discount_kept ⟨REQUIRED_COLUMNS, [rowDiscFree]⟩ rowDiscFree
    rfl rfl (by decide) rfl

/-! ## C3 groundwork: character-level lemmas -/

theorem charToNat_ofNat (n : ℕ) (h : n.isValidChar) : (Char.ofNat n).toNat = n := by
  simp only [Char.ofNat, dif_pos h]
  simp only [Char.ofNatAux, Char.toNat]
  simp [UInt32.toNat, BitVec.toNat_ofNatLt]

theorem toNat_lowerChar_of_upper (c : Char) (h : 65 ≤ c.toNat ∧ c.toNat ≤ 90) :
    (lowerChar c).toNat = c.toNat + 32 := by
  rw [lowerChar, if_pos h]
  exact charToNat_ofNat _ (Or.inl (by omega))

theorem toNat_upperChar_of_lower (c : Char) (h : 97 ≤ c.toNat ∧ c.toNat ≤ 122) :
    (upperChar c).toNat = c.toNat - 32 := by
  rw [upperChar, if_pos h]
  exact charToNat_ofNat _ (Or.inl (by omega))

theorem lowerChar_lowerChar (c : Char) : lowerChar (lowerChar c) = lowerChar c := by
  by_cases h : 65 ≤ c.toNat ∧ c.toNat ≤ 90
  · have ht := toNat_lowerChar_of_upper c h
    rw [lowerChar, if_neg (by omega)]
  · have hc : lowerChar c = c := by rw [lowerChar, if_neg h]
    rw [hc]
    exact hc

theorem upperChar_upperChar (c : Char) : upperChar (upperChar c) = upperChar c := by
  by_cases h : 97 ≤ c.toNat ∧ c.toNat ≤ 122
  · have ht := toNat_upperChar_of_lower c h
    rw [upperChar, if_neg (by omega)]
  · have hc : upperChar c = c := by rw [upperChar, if_neg h]
    rw [hc]
    exact hc

theorem isAlphaChar_lowerChar (c : Char) : isAlphaChar (lowerChar c) = isAlphaChar c := by
  by_cases h : 65 ≤ c.toNat ∧ c.toNat ≤ 90
  · have ht := toNat_lowerChar_of_upper c h
    simp only [isAlphaChar, ht]
    rw [decide_eq_true (by omega), decide_eq_true (by omega)]
  · rw [lowerChar, if_neg h]

theorem isAlphaChar_upperChar (c : Char) : isAlphaChar (upperChar c) = isAlphaChar c := by
  by_cases h : 97 ≤ c.toNat ∧ c.toNat ≤ 122
  · have ht := toNat_upperChar_of_lower c h
    simp only [isAlphaChar, ht]
    rw [decide_eq_true (by omega), decide_eq_true (by omega)]
  · rw [upperChar, if_neg h]

theorem isWsChar_lowerChar (c : Char) : isWsChar (lowerChar c) = isWsChar c := by
  by_cases h : 65 ≤ c.toNat ∧ c.toNat ≤ 90
  · have ht := toNat_lowerChar_of_upper c h
    simp only [isWsChar, ht]
    rw [decide_eq_false (by omega), decide_eq_false (by omega)]
  · rw [lowerChar, if_neg h]

theorem isWsChar_upperChar (c : Char) : isWsChar (upperChar c) = isWsChar c := by
  by_cases h : 97 ≤ c.toNat ∧ c.toNat ≤ 122
  · have ht := toNat_upperChar_of_lower c h
    simp only [isWsChar, ht]
    rw [decide_eq_false (by omega), decide_eq_false (by omega)]
  · rw [upperChar, if_neg h]

/-! ## C3 groundwork: strip and title fixed points -/

theorem dropWhile_dropWhile {α : Type} (p : α → Bool) (l : List α) :
    (l.dropWhile p).dropWhile p = l.dropWhile p := by
  induction l with
  | nil => rfl
  | cons c cs ih =>
    rw [List.dropWhile_cons]
    by_cases h : p c
    · rw [if_pos h]
      exact ih
    · rw [if_neg h, List.dropWhile_cons, if_neg h]

theorem dropWhile_cons_eq_self {α : Type} (p : α → Bool) (a : α) (t : List α) :
    (a :: t).dropWhile p = a :: t ↔ p a = false := by
  rw [List.dropWhile_cons]
  constructor
  · intro h
    cases hpa : p a with
    | false => rfl
    | true =>
      exfalso
      rw [if_pos hpa] at h
      have hlen := (@List.dropWhile_suffix _ t p).sublist.length_le
      rw [h] at hlen
      simp at hlen
  · intro h
    rw [if_neg (by simp [h])]

theorem dropWhile_eq_self_of_front {α : Type} (p : α → Bool) (l₁ l₂ : List α)
    (hp : l₁ <+: l₂) (h : l₂.dropWhile p = l₂) : l₁.dropWhile p = l₁ := by
  cases l₁ with
  | nil => rfl
  | cons a t =>
    obtain ⟨t2, ht2⟩ := hp
    subst ht2
    rw [List.cons_append] at h
    have hpa := (dropWhile_cons_eq_self p a (t ++ t2)).mp h
    exact (dropWhile_cons_eq_self p a t).mpr hpa

theorem dropWhile_eq_self_of_map_eq {α : Type} (p : α → Bool) (l₁ l₂ : List α)
    (hm : l₁.map p = l₂.map p) (h : l₁.dropWhile p = l₁) : l₂.dropWhile p = l₂ := by
  cases l₁ with
  | nil =>
    have : l₂ = [] := by
      cases l₂ with
      | nil => rfl
      | cons b u => simp at hm
    rw [this]
    rfl
  | cons a t =>
    cases l₂ with
    | nil => simp at hm
    | cons b u =>
      simp only [List.map_cons, List.cons.injEq] at hm
      have hpa := (dropWhile_cons_eq_self p a t).mp h
      exact (dropWhile_cons_eq_self p b u).mpr (hm.1 ▸ hpa)

theorem titleCore_map_ws : ∀ (b : Bool) (l : List Char),
    (titleCore b l).map isWsChar = l.map isWsChar := by
  intro b l
  induction l generalizing b with
  | nil => rfl
  | cons c cs ih =>
    simp only [titleCore, List.map_cons]
    congr 1
    · by_cases ha : isAlphaChar c
      · rw [if_pos ha]
        by_cases hb : b
        · rw [if_pos hb, isWsChar_lowerChar]
        · rw [if_neg hb, isWsChar_upperChar]
      · rw [if_neg ha]
    · exact ih _

theorem titleCore_titleCore : ∀ (b : Bool) (l : List Char),
    titleCore b (titleCore b l) = titleCore b l := by
  intro b l
  induction l generalizing b with
  | nil => rfl
  | cons c cs ih =>
    simp only [titleCore]
    set c2 := if isAlphaChar c then (if b then lowerChar c else upperChar c) else c with hc2
    have halpha : isAlphaChar c2 = isAlphaChar c := by
      rw [hc2]
      by_cases ha : isAlphaChar c
      · rw [if_pos ha]
        by_cases hb : b
        · rw [if_pos hb, isAlphaChar_lowerChar]
        · rw [if_neg hb, isAlphaChar_upperChar]
      · rw [if_neg ha]
    have hfix : (if isAlphaChar c2 then (if b then lowerChar c2 else upperChar c2) else c2) = c2 := by
      rw [halpha]
      by_cases ha : isAlphaChar c
      · rw [if_pos ha, hc2, if_pos ha]
        by_cases hb : b
        · rw [if_pos hb, if_pos hb, lowerChar_lowerChar]
        · rw [if_neg hb, if_neg hb, upperChar_upperChar]
      · rw [if_neg ha, hc2, if_neg ha]
    rw [hfix, halpha, ih]

/-- A character list with no leading and no trailing whitespace. -/
def StrippedL (l : List Char) : Prop :=
  l.dropWhile isWsChar = l ∧ l.reverse.dropWhile isWsChar = l.reverse

theorem pyStrip_data_reverse (s : String) :
    (pyStrip s).data.reverse = (s.data.dropWhile isWsChar).reverse.dropWhile isWsChar := by
  simp [pyStrip]

theorem stripped_pyStrip (s : String) : StrippedL (pyStrip s).data := by
  constructor
  · have hBA : (pyStrip s).data <+: (s.data.dropWhile isWsChar) := by
      refine List.reverse_suffix.mp ?_
      rw [pyStrip_data_reverse]
      exact List.dropWhile_suffix _
    exact dropWhile_eq_self_of_front _ _ _ hBA (dropWhile_dropWhile _ _)
  · rw [pyStrip_data_reverse]
    exact dropWhile_dropWhile _ _

theorem pyStrip_eq_self (s : String) (h : StrippedL s.data) : pyStrip s = s := by
  obtain ⟨h1, h2⟩ := h
  unfold pyStrip
  rw [h1, h2, List.reverse_reverse]

theorem pyStrip_pyStrip (s : String) : pyStrip (pyStrip s) = pyStrip s :=
  pyStrip_eq_self _ (stripped_pyStrip s)

theorem pyTitle_pyTitle (s : String) : pyTitle (pyTitle s) = pyTitle s := by
  show String.mk (titleCore false (titleCore false s.data)) = _
  rw [titleCore_titleCore]
  rfl

theorem stripped_pyTitle (s : String) (h : StrippedL s.data) : StrippedL (pyTitle s).data := by
  obtain ⟨h1, h2⟩ := h
  constructor
  · exact dropWhile_eq_self_of_map_eq isWsChar s.data _ (titleCore_map_ws false s.data).symm h1
  · refine dropWhile_eq_self_of_map_eq isWsChar s.data.reverse _ ?_ h2
    show s.data.reverse.map isWsChar = (titleCore false s.data).reverse.map isWsChar
    rw [List.map_reverse, List.map_reverse, titleCore_map_ws]

theorem pyLower_pyLower (s : String) : pyLower (pyLower s) = pyLower s := by
  show String.mk ((s.data.map lowerChar).map lowerChar) = _
  rw [List.map_map, show (lowerChar ∘ lowerChar) = lowerChar from funext lowerChar_lowerChar]
  rfl

theorem stripped_pyLower (s : String) (h : StrippedL s.data) : StrippedL (pyLower s).data := by
  obtain ⟨h1, h2⟩ := h
  have hmap : s.data.map isWsChar = (s.data.map lowerChar).map isWsChar := by
    rw [List.map_map, show (isWsChar ∘ lowerChar) = isWsChar from funext isWsChar_lowerChar]
  constructor
  · exact dropWhile_eq_self_of_map_eq isWsChar s.data _ hmap h1
  · refine dropWhile_eq_self_of_map_eq isWsChar s.data.reverse _ ?_ h2
    show s.data.reverse.map isWsChar = (s.data.map lowerChar).reverse.map isWsChar
    rw [List.map_reverse, List.map_reverse, List.map_map,
      show (isWsChar ∘ lowerChar) = isWsChar from funext isWsChar_lowerChar]

/-! ## C3 groundwork: coercions are stable on already-coerced cells -/

theorem cellToDatetime_idem (c : Cell) :
    cellToDatetime (cellToDatetime c) = cellToDatetime c := by
  cases c with
  | str s => cases h : parseISODate (pyStrip s) <;> simp [cellToDatetime, h]
  | num q => rfl
  | date d => rfl
  | null => rfl

theorem cellToNumeric_idem (c : Cell) :
    cellToNumeric (cellToNumeric c) = cellToNumeric c := by
  cases c with
  | str s => cases h : parseDecimal (pyStrip s) <;> simp [cellToNumeric, h]
  | num q => rfl
  | date d => rfl
  | null => rfl

theorem clamp_idem (q : ℚ) : min 1 (max 0 (min 1 (max 0 q))) = min 1 (max 0 q) := by
  have h0 : (0 : ℚ) ≤ min 1 (max 0 q) := le_min zero_le_one (le_max_left _ _)
  have h1 : min 1 (max 0 q) ≤ 1 := min_le_left _ _
  rw [max_eq_right h0, min_eq_right h1]

theorem discountCoerce_idem (c : Cell) :
    clipCell (cellToNumeric (clipCell (cellToNumeric c))) = clipCell (cellToNumeric c) := by
  have hrange : (∃ q, cellToNumeric c = Cell.num q) ∨ cellToNumeric c = Cell.null := by
    cases c with
    | str s => cases h : parseDecimal (pyStrip s) <;> simp [cellToNumeric, h]
    | num q => exact Or.inl ⟨q, rfl⟩
    | date d => exact Or.inr rfl
    | null => exact Or.inr rfl
  rcases hrange with ⟨q, hq⟩ | hq
  · rw [hq]
    show clipCell (cellToNumeric (Cell.num (min 1 (max 0 q)))) = _
    show Cell.num (min 1 (max 0 (min 1 (max 0 q)))) = _
    rw [clamp_idem]
    rfl
  · rw [hq]
    rfl

/-! ## C3 groundwork: row-level fixed points -/

theorem Row.ext2 (a b : Row)
    (h1 : a.order_id = b.order_id) (h2 : a.customer_id = b.customer_id)
    (h3 : a.product = b.product) (h4 : a.category = b.category)
    (h5 : a.region = b.region) (h6 : a.quantity = b.quantity)
    (h7 : a.unit_price = b.unit_price) (h8 : a.discount = b.discount)
    (h9 : a.order_date = b.order_date) (h10 : a.status = b.status)
    (h11 : a.total_revenue = b.total_revenue) : a = b := by
  cases a
  cases b
  simp_all

theorem strCell_strip_fix (c : Cell) :
    strCell pyStrip (strCell pyStrip c) = strCell pyStrip c := by
  cases c with
  | str s =>
    show Cell.str (pyStrip (pyStrip s)) = Cell.str (pyStrip s)
    rw [pyStrip_pyStrip]
  | num q => rfl
  | date d => rfl
  | null => rfl

theorem strCell_titleStrip_fix (c : Cell) :
    strCell (fun s => pyTitle (pyStrip s)) (strCell (fun s => pyTitle (pyStrip s)) c) =
      strCell (fun s => pyTitle (pyStrip s)) c := by
  cases c with
  | str s =>
    show Cell.str (pyTitle (pyStrip (pyTitle (pyStrip s)))) = Cell.str (pyTitle (pyStrip s))
    rw [pyStrip_eq_self _ (stripped_pyTitle _ (stripped_pyStrip s)), pyTitle_pyTitle]
  | num q => rfl
  | date d => rfl
  | null => rfl

theorem strCell_lowerStrip_fix (c : Cell) :
    strCell (fun s => pyLower (pyStrip s)) (strCell (fun s => pyLower (pyStrip s)) c) =
      strCell (fun s => pyLower (pyStrip s)) c := by
  cases c with
  | str s =>
    show Cell.str (pyLower (pyStrip (pyLower (pyStrip s)))) = Cell.str (pyLower (pyStrip s))
    rw [pyStrip_eq_self _ (stripped_pyLower _ (stripped_pyStrip s)), pyLower_pyLower]
  | num q => rfl
  | date d => rfl
  | null => rfl

theorem coerceRow_cleanRowFull (r : Row) : coerceRow (cleanRowFull r) = cleanRowFull r := by
  apply Row.ext2
  · rfl
  · rfl
  · rfl
  · rfl
  · rfl
  · exact cellToNumeric_idem r.quantity
  · exact cellToNumeric_idem r.unit_price
  · exact discountCoerce_idem r.discount
  · exact cellToDatetime_idem r.order_date
  · rfl
  · rfl

theorem normalizeRow_cleanRowFull (r : Row) : normalizeRow (cleanRowFull r) = cleanRowFull r := by
  apply Row.ext2
  · rfl
  · rfl
  · exact strCell_strip_fix r.product
  · exact strCell_titleStrip_fix r.category
  · exact strCell_titleStrip_fix r.region
  · rfl
  · rfl
  · rfl
  · rfl
  · exact strCell_lowerStrip_fix r.status
  · rfl

theorem computeRevenue_cleanRowFull (r : Row) :
    computeRevenue (cleanRowFull r) = cleanRowFull r := rfl

theorem validRow_cleanRowFull (r : Row) :
    validRow (cleanRowFull r) = validRow (coerceRow r) := rfl

/-! ## C3 — clean_and_transform is idempotent on its own output -/

/-- The row pipeline applied by `clean_and_transform` after a successful
schema check. -/
def pipelineOut (rows : List Row) : List Row :=
  ((((dedupByOrderId rows).map coerceRow).filter validRow).map normalizeRow).map computeRevenue

/-- `clean_and_transform` on a schema-complete batch, phrased via
`pipelineOut`. -/
theorem clean_eq_ok (b : RawBatch) (hmiss : missingColumns b.cols = []) :
    clean_and_transform b =
      .ok (pipelineOut b.rows, b.rows.length - (pipelineOut b.rows).length) :=
  clean_and_transform_ok b hmiss

theorem map_id_of_mem {α : Type} (f : α → α) (l : List α) (h : ∀ x ∈ l, f x = x) :
    l.map f = l := by
  induction l with
  | nil => rfl
  | cons a t ih =>
    rw [List.map_cons, h a (List.mem_cons_self _ _),
      ih (fun x hx => h x (List.mem_cons_of_mem _ hx))]

theorem mem_pipelineOut (rows : List Row) (x : Row) (hx : x ∈ pipelineOut rows) :
    ∃ r0, validRow (coerceRow r0) = true ∧ x = cleanRowFull r0 := by
  obtain ⟨y, hy, hyx⟩ := List.mem_map.mp hx
  obtain ⟨z, hz, hzy⟩ := List.mem_map.mp hy
  have hz2 := List.mem_filter.mp hz
  obtain ⟨r0, _, hr0z⟩ := List.mem_map.mp hz2.1
  refine ⟨r0, ?_, ?_⟩
  · rw [hr0z]
    exact hz2.2
  · rw [← hyx, ← hzy, ← hr0z]
    rfl

theorem pipelineOut_pairwise (rows : List Row) :
    List.Pairwise (fun a b : Row => a.order_id ≠ b.order_id) (pipelineOut rows) := by
  have h1 : List.Pairwise (fun a b : Row => a.order_id ≠ b.order_id) (dedupByOrderId rows) :=
    (dedupKeysGo_pairwise (fun r : Row => r.order_id) [] rows).1
  have h2 : List.Pairwise (fun a b : Row => a.order_id ≠ b.order_id)
      ((dedupByOrderId rows).map coerceRow) :=
    List.pairwise_map.mpr h1
  have h3 : List.Pairwise (fun a b : Row => a.order_id ≠ b.order_id)
      (((dedupByOrderId rows).map coerceRow).filter validRow) :=
    List.Pairwise.sublist (List.filter_sublist _) h2
  have h4 : List.Pairwise (fun a b : Row => a.order_id ≠ b.order_id)
      ((((dedupByOrderId rows).map coerceRow).filter validRow).map normalizeRow) :=
    List.pairwise_map.mpr h3
  exact List.pairwise_map.mpr h4

theorem pipelineOut_idem (rows : List Row) :
    pipelineOut (pipelineOut rows) = pipelineOut rows := by
  have hmem := mem_pipelineOut rows
  have hded : dedupByOrderId (pipelineOut rows) = pipelineOut rows :=
    dedupKeysGo_eq_self (fun r : Row => r.order_id) [] (pipelineOut rows)
      (pipelineOut_pairwise rows) (fun x _ => List.not_mem_nil _)
  have hco : (pipelineOut rows).map coerceRow = pipelineOut rows :=
    map_id_of_mem _ _ (fun x hx => by
      obtain ⟨r0, hv, rfl⟩ := hmem x hx
      exact coerceRow_cleanRowFull r0)
  have hfil : (pipelineOut rows).filter validRow = pipelineOut rows :=
    List.filter_eq_self.mpr (fun x hx => by
      obtain ⟨r0, hv, rfl⟩ := hmem x hx
      rw [validRow_cleanRowFull]
      exact hv)
  have hno : (pipelineOut rows).map normalizeRow = pipelineOut rows :=
    map_id_of_mem _ _ (fun x hx => by
      obtain ⟨r0, hv, rfl⟩ := hmem x hx
      exact normalizeRow_cleanRowFull r0)
  have hcr : (pipelineOut rows).map computeRevenue = pipelineOut rows :=
    map_id_of_mem _ _ (fun x hx => by
      obtain ⟨r0, hv, rfl⟩ := hmem x hx
      exact computeRevenue_cleanRowFull r0)
  show ((((dedupByOrderId (pipelineOut rows)).map coerceRow).filter validRow).map
    normalizeRow).map computeRevenue = pipelineOut rows
  rw [hded, hco, hfil, hno, hcr]

/-- C3: `clean_and_transform` is idempotent on its own output — feeding a
cleaned batch back in returns the very same cleaned batch with zero rows
skipped. -/
theorem C3_clean_idempotent (b : RawBatch) (out : List Row) (n : ℕ)
    (h : clean_and_transform b = .ok (out, n)) :
    clean_and_transform ⟨cleanedCols, out⟩ = .ok (out, 0) := by
  have hmiss2 : missingColumns cleanedCols = [] := by decide
  cases hm : missingColumns b.cols with
  | cons a as =>
    rw [clean_and_transform, validate_schema, hm] at h
    exact absurd h (by simp)
  | nil =>
    have hout := clean_eq_ok b hm
    rw [h] at hout
    have hout2 : out = pipelineOut b.rows :=
      congrArg Prod.fst (Except.ok.inj hout)
    rw [clean_eq_ok ⟨cleanedCols, out⟩ hmiss2]
    show Except.ok (pipelineOut out, out.length - (pipelineOut out).length) = _
    rw [hout2, pipelineOut_idem, Nat.sub_self]

/-- Witness for C3: cleaning the two-row demo batch and feeding the result
back in returns it unchanged with zero rows skipped. -/
theorem C3_clean_idempotent_witness :
    clean_and_transform ⟨cleanedCols, pipelineOut [rowOrd1, rowOrd2]⟩ =
      .ok (pipelineOut [rowOrd1, rowOrd2], 0) :=
  C3_clean_idempotent ⟨REQUIRED_COLUMNS, [rowOrd1, rowOrd2]⟩
    (pipelineOut [rowOrd1, rowOrd2]) 0 rfl

/-! ## C4 — which data-quality problems can and cannot raise

The pandas `.str` accessor validates the inferred type of the column's
current values before operating: values that are all strings (or a mix
containing strings, or no values at all / only null markers) are allowed
and processed elementwise, while a column whose surviving values contain
a number and no string — e.g. a wholly numeric `region` column, which
`read_csv` parses as a numeric dtype — makes `.str.strip()` raise
`AttributeError`.  `clean_and_transform` above models the allowed,
elementwise regime; `clean_and_transform_checked` adds the accessor's
validation, raising exactly when one of the four text columns fails it. -/

/-- Errors `clean_and_transform` can raise: the `ValueError` of
`validate_schema`, and the `AttributeError` of the `.str` accessor on a
non-string column. -/
inductive CleanError where
  | schemaError (missing : List String)
  | strAccessorError
deriving DecidableEq, Repr

/-- The `.str` accessor's validation of one column's current values:
allowed when some value is a string, or when every value is a null marker
(including the empty column); a column with a numeric (or date) value and
no string raises. -/
def strAccessorOk (col : List Cell) : Bool :=
  col.any (fun c => match c with | .str _ => true | _ => false) ||
  col.all (fun c => c == Cell.null)

/-- The accessor validation over the four text columns normalised by
`clean_and_transform` (lines 67–70 of `transformations.py`), applied to
the rows surviving the null-drop — row filtering determines the values
the accessor sees.  The later accessor calls on already-stripped columns
always pass, since their values are strings or nulls. -/
def textColumnsOk (rows : List Row) : Bool :=
  strAccessorOk (rows.map (·.region)) && strAccessorOk (rows.map (·.category)) &&
  strAccessorOk (rows.map (·.product)) && strAccessorOk (rows.map (·.status))

/-- `clean_and_transform` with the `.str` accessor's dtype validation
modelled: identical to `clean_and_transform` except that it raises
`AttributeError` when a text column of the surviving rows fails the
accessor check, exactly where the source would. -/
def clean_and_transform_checked (b : RawBatch) : Except CleanError (List Row × ℕ) :=
  match validate_schema b.cols with
  | .error ms => .error (.schemaError ms)
  | .ok _ =>
    let kept := ((dedupByOrderId b.rows).map coerceRow).filter validRow
    if textColumnsOk kept then
      let out := (kept.map normalizeRow).map computeRevenue
      .ok (out, b.rows.length - out.length)
    else .error .strAccessorError

/-- A schema-complete batch of two fully valid order rows whose `region`
column is wholly numeric, as `read_csv` produces for a CSV whose region
field holds only numbers. -/
def numericRegionBatch : RawBatch :=
  ⟨REQUIRED_COLUMNS,
   [{ rowOrd1 with region := .num 7 }, { rowOrd2 with region := .num 8 }]⟩

/-- C4 counterexample: the claim is false on the code — a batch that
passes schema validation but whose `region` values are all numeric makes
the `.str` accessor raise, so `clean_and_transform` does raise for
row-value data quality. -/
theorem C4_counterexample :
    validate_schema numericRegionBatch.cols = .ok () ∧
    clean_and_transform_checked numericRegionBatch = .error .strAccessorError :=
  ⟨rfl, rfl⟩

/-- A batch full of row-level data-quality problems that keeps its text
columns in the accessor-allowed regime: an unparseable date, a
non-numeric quantity, an out-of-range discount, one numeric region value
among strings and a null status. -/
def messyBatch : RawBatch :=
  ⟨REQUIRED_COLUMNS,
   [rowOrd1,
    { rowOrd2 with order_id := .str "m1", order_date := .str "junk" },
    { rowOrd2 with order_id := .str "m2", quantity := .str "many" },
    { rowOrd2 with order_id := .str "m3", discount := .num (3 / 2) },
    { rowOrd2 with order_id := .str "m4", region := .num 7, status := .null }]⟩

/-- C4 amended: once the schema check passes, and provided each of the
four text columns of the surviving rows still contains a string value or
only null markers (so the `.str` accessor's validation passes — as
`read_csv` guarantees whenever the column is not wholly numeric),
`clean_and_transform` never raises: malformed dates, non-numeric
quantities or prices, out-of-range discounts and stray non-string text
entries are coerced or clamped, bad rows are dropped, and the drop count
is reported as `rows_skipped`.  A wholly numeric text column, however,
makes the `.str` accessor raise `AttributeError`, failing the batch.
Under the proviso the checked model agrees with the elementwise model. -/
theorem C4_no_rejection_for_object_columns (b : RawBatch)
    (hmiss : missingColumns b.cols = [])
    (hcols : textColumnsOk (((dedupByOrderId b.rows).map coerceRow).filter validRow) = true) :
    clean_and_transform_checked b =
      .ok (pipelineOut b.rows, b.rows.length - (pipelineOut b.rows).length) ∧
    (∀ e, clean_and_transform_checked b ≠ .error e) ∧
    clean_and_transform b =
      .ok (pipelineOut b.rows, b.rows.length - (pipelineOut b.rows).length) := by
  have h1 : clean_and_transform_checked b =
      .ok (pipelineOut b.rows, b.rows.length - (pipelineOut b.rows).length) := by
    cases hm : missingColumns b.cols with
    | cons a as =>
      rw [hm] at hmiss
      exact absurd hmiss (by simp)
    | nil =>
      show (match validate_schema b.cols with
        | Except.error ms => Except.error (CleanError.schemaError ms)
        | Except.ok _ =>
          let kept := ((dedupByOrderId b.rows).map coerceRow).filter validRow
          if textColumnsOk kept then
            let out := (kept.map normalizeRow).map computeRevenue
            Except.ok (out, b.rows.length - out.length)
          else Except.error CleanError.strAccessorError) = _
      rw [validate_schema, hm]
      simp only [hcols, if_true]
      rfl
  refine ⟨h1, ?_, clean_eq_ok b hmiss⟩
  intro e he
  rw [h1] at he
  exact absurd he (by simp)

/-- Witness for the amended C4: the messy batch is cleaned, not rejected,
by both models, with the skipped-row count reported. -/
theorem C4_no_rejection_for_object_columns_witness :
    clean_and_transform_checked messyBatch =
      .ok (pipelineOut messyBatch.rows,
        messyBatch.rows.length - (pipelineOut messyBatch.rows).length) ∧
    (∀ e, clean_and_transform_checked messyBatch ≠ .error e) ∧
    clean_and_transform messyBatch =
      .ok (pipelineOut messyBatch.rows,
        messyBatch.rows.length - (pipelineOut messyBatch.rows).length) :=
  C4_no_rejection_for_object_columns messyBatch rfl rfl
